import Mathlib

/-!
Verification of the transcribeupl playback core against its specification.

The development shallowly embeds the Rust implementation:
* `src/audio.rs` — `SliceSource`, `Player` and its transport operations;
* `src/pedal.rs` — device discovery (`find_device`) and the event read loop;
* `src/main.rs` — the pedal-event dispatcher and hold-rewind tick.

Modelling conventions:
* `f32`/`f64` sample values, speeds and elapsed times are embedded as `ℚ`;
  every floating-point `floor`/`round` in the source appears explicitly.
* Wall-clock reads (`Instant::now`, `Instant::elapsed`) are passed to the
  operations as explicit `ℚ` parameters; the stored
  `play_start_instant : Option<Instant>` is modelled by a `Bool` presence flag.
* `Sink::try_new` is fallible in the source; its success is an explicit
  `Bool` parameter, and a `panic!`/`expect` failure is the `PanicOr.panic`
  constructor, distinct from every normal result.
* `usize` indices are `ℕ` (the source's `saturating_add` cannot wrap there).
-/

namespace Transcribe

/-- Result of running a fragment of code that may panic (Rust `expect`). -/
inductive PanicOr (α : Type) where
  | panic (msg : String)
  | ok (a : α)
deriving DecidableEq

namespace PanicOr

def isPanic {α : Type} : PanicOr α → Bool
  | .panic _ => true
  | .ok _ => false

end PanicOr

/-- `DecodedAudio` from `src/audio.rs`: immutable interleaved PCM buffer. -/
structure DecodedAudio where
  samples : List ℚ
  sample_rate : ℕ
  channels : ℕ
  total_samples : ℕ
deriving DecidableEq

/-- `SliceSource` from `src/audio.rs`: pull-based view over the PCM buffer. -/
structure SliceSource where
  data : List ℚ
  pos : ℕ
  endIdx : ℕ
  channels : ℕ
  sample_rate : ℕ
deriving DecidableEq

/-- `SliceSource::new`: clamp `start` to the buffer length, set `end` to the
buffer length, and report sample rate `((base_sample_rate as f32) * speed).round().max(1.0) as u32`. -/
def SliceSource.new (data : List ℚ) (start : ℕ) (channels : ℕ)
    (base_sample_rate : ℕ) (speed : ℚ) : SliceSource :=
  let start := min start data.length
  let adj_sr : ℕ := (max (round ((base_sample_rate : ℚ) * speed)) 1).toNat
  { data := data, pos := start, endIdx := data.length,
    channels := channels, sample_rate := adj_sr }

/-- `<SliceSource as Iterator>::next`: `None` once `pos >= end`, otherwise
emit `data[pos]` and advance `pos` by one. -/
def SliceSource.next (s : SliceSource) : Option (ℚ × SliceSource) :=
  if s.endIdx ≤ s.pos then none
  else some (s.data.getD s.pos 0, { s with pos := s.pos + 1 })

/-- Iterate `next` `n` times (stopping at exhaustion), returning the state. -/
def SliceSource.steps (s : SliceSource) : ℕ → SliceSource
  | 0 => s
  | n + 1 =>
    match s.next with
    | none => s
    | some (_, s1) => s1.steps n

/-- `Player` from `src/audio.rs`.  The `sink` field holds the source bound to
the active rodio sink, `play_start_instant` the presence of the stored
`Instant`. -/
structure Player where
  sink : Option SliceSource
  audio : Option DecodedAudio
  file_path : Option String
  playing : Bool
  speed : ℚ
  content_index : ℕ
  play_start_index : ℕ
  play_start_instant : Bool
deriving DecidableEq

/-- `Player::new` (the audio-output handle itself is external). -/
def Player.init : Player :=
  { sink := none, audio := none, file_path := none, playing := false,
    speed := 1, content_index := 0, play_start_index := 0,
    play_start_instant := false }

/-- `Player::current_index_interleaved`, with the wall-clock elapsed seconds
since `play_start_instant` passed explicitly. -/
def Player.currentIndexInterleaved (p : Player) (elapsed : ℚ) : ℕ :=
  if p.playing = false then p.content_index
  else
    match p.audio with
    | none => 0
    | some audio =>
      if p.play_start_instant = false then p.content_index
      else
        let delta : ℕ :=
          (Int.floor (elapsed * (audio.sample_rate : ℚ) * p.speed *
            (audio.channels : ℚ))).toNat
        let idx := p.play_start_index + delta
        if audio.total_samples < idx then audio.total_samples else idx

/-- `Player::rebuild_sink_from`.  The source drops the old sink, then runs
`Sink::try_new(..).expect("Failed to create Sink")`; `sinkOk` is whether
`Sink::try_new` succeeds. -/
def Player.rebuildSinkFrom (p : Player) (start_idx : ℕ) (sinkOk : Bool) :
    PanicOr Player :=
  match p.audio with
  | none => .ok p
  | some audio =>
    if sinkOk then
      let source := SliceSource.new audio.samples start_idx audio.channels
        audio.sample_rate p.speed
      .ok { p with sink := some source,
                   play_start_index := start_idx,
                   play_start_instant := true,
                   playing := true }
    else .panic "Failed to create Sink"

/-- `Player::play_from_current`. -/
def Player.playFromCurrent (p : Player) (sinkOk : Bool) : PanicOr Player :=
  p.rebuildSinkFrom p.content_index sinkOk

/-- `Player::pause`. -/
def Player.pause (p : Player) (elapsed : ℚ) : Player :=
  if p.playing then
    { p with content_index := p.currentIndexInterleaved elapsed,
             sink := none, playing := false, play_start_instant := false }
  else p

/-- `Player::stop`. -/
def Player.stop (p : Player) : Player :=
  { p with sink := none, playing := false, play_start_instant := false }

/-- `Player::seek_seconds`. -/
def Player.seekSeconds (p : Player) (delta_seconds : ℤ) (elapsed : ℚ)
    (sinkOk : Bool) : PanicOr Player :=
  match p.audio with
  | none => .ok p
  | some audio =>
    let total := audio.total_samples
    let delta_samples : ℤ :=
      Int.floor ((delta_seconds : ℚ) * (audio.sample_rate : ℚ) *
        (audio.channels : ℚ))
    let base_idx : ℤ := (p.currentIndexInterleaved elapsed : ℤ)
    let new1 : ℤ := base_idx + delta_samples
    let new2 : ℤ := if new1 < 0 then 0 else new1
    let new3 : ℤ := if (total : ℤ) < new2 then (total : ℤ) else new2
    let p1 := { p with content_index := new3.toNat }
    if p.playing then p1.rebuildSinkFrom p1.content_index sinkOk else .ok p1

/-- `Player::set_speed`: the new speed is installed (floored at `0.1`) before
the current index is recomputed. -/
def Player.setSpeed (p : Player) (speed : ℚ) (elapsed : ℚ) (sinkOk : Bool) :
    PanicOr Player :=
  let p0 := { p with speed := max speed (1 / 10) }
  if p0.playing then
    let idx := p0.currentIndexInterleaved elapsed
    let p1 := { p0 with content_index := idx }
    p1.rebuildSinkFrom p1.content_index sinkOk
  else .ok p0

/-- `Player::clamp_at_end_if_needed`. -/
def Player.clampAtEndIfNeeded (p : Player) (elapsed : ℚ) : Player :=
  match p.audio with
  | none => p
  | some audio =>
    let idx := p.currentIndexInterleaved elapsed
    if audio.total_samples ≤ idx then
      let p1 := p.pause elapsed
      { p1 with content_index := audio.total_samples }
    else p

/-- `Player::load_file`: stops first, then decodes; on decode error the `?`
operator returns the error with the post-`stop` state.  The decode result of
the external decoder collaborator is passed in. -/
def Player.loadFile (p : Player) (path : String)
    (decoded : Except String DecodedAudio) : Player × Option String :=
  let p0 := p.stop
  match decoded with
  | .error e => (p0, some e)
  | .ok d =>
    ({ p0 with audio := some d, file_path := some path,
               content_index := 0, play_start_index := 0,
               play_start_instant := false }, none)

/-- `Player::unload`. -/
def Player.unload (p : Player) : Player :=
  let p0 := p.stop
  { p0 with audio := none, file_path := none, content_index := 0,
            play_start_index := 0, play_start_instant := false }

/-! ## Pedal device discovery (`src/pedal.rs`) -/

/-- `DEFAULT_VENDOR_ID` from `src/config.rs` (0x0911). -/
def DEFAULT_VENDOR_ID : ℕ := 0x0911

/-- `DEFAULT_PRODUCT_ID` from `src/config.rs` (0x1844). -/
def DEFAULT_PRODUCT_ID : ℕ := 0x1844

/-- One enumerated `/dev/input` device as `find_device` sees it: its path,
its reported `input_id` (vendor, product) when available, and whether a
fresh `Device::open` on its path succeeds. -/
structure EnumDevice where
  path : String
  input_id : Option (ℕ × ℕ)
  openOk : Bool
deriving DecidableEq

/-- `Preferred` from `src/pedal.rs`. -/
inductive Preferred where
  | vidPid (vid pid : ℕ)
  | path (p : String)
deriving DecidableEq

/-- `PedalModel` fields used by `preferred_device_paths`. -/
structure PedalModel where
  vendor_id : ℕ
  product_id : ℕ
deriving DecidableEq

/-- The configuration fields consulted by `preferred_device_paths`. -/
structure PedalConfig where
  pedals : List PedalModel
  device_path : Option String
deriving DecidableEq

/-- `preferred_device_paths`: default pedal first, then configured pedals in
list order, then the optional explicit path fallback. -/
def preferred_device_paths (cfg : PedalConfig) : List Preferred :=
  [Preferred.vidPid DEFAULT_VENDOR_ID DEFAULT_PRODUCT_ID]
    ++ cfg.pedals.map (fun p => Preferred.vidPid p.vendor_id p.product_id)
    ++ (match cfg.device_path with
        | some p => [Preferred.path p]
        | none => [])

/-- The inner device loop of `find_device` for a vendor/product candidate:
scan the enumeration snapshot in order, return the first device whose
`input_id` matches and whose `Device::open` succeeds (an open failure is
logged and the loop continues). -/
def tryVidPid (vid pid : ℕ) : List EnumDevice → Option String
  | [] => none
  | d :: rest =>
    match d.input_id with
    | some (v, pr) =>
      if v = vid ∧ pr = pid then
        if d.openOk then some d.path else tryVidPid vid pid rest
      else tryVidPid vid pid rest
    | none => tryVidPid vid pid rest

/-- One candidate of `find_device`'s outer loop.  `fsExists` and `openDev`
embed `Path::exists` and `Device::open` for the explicit-path fallback. -/
def tryPref (fsExists openDev : String → Bool) (devices : List EnumDevice) :
    Preferred → Option String
  | .vidPid v pr => tryVidPid v pr devices
  | .path p => if fsExists p then (if openDev p then some p else none) else none

/-- `find_device`, after the enumeration snapshot succeeded: candidates are
tried in list order; the first candidate that yields an opened device wins
and the remaining candidates are never examined. -/
def find_device (fsExists openDev : String → Bool) (prefs : List Preferred)
    (devices : List EnumDevice) : Option String :=
  match prefs with
  | [] => none
  | pref :: rest =>
    match tryPref fsExists openDev devices pref with
    | some path => some path
    | none => find_device fsExists openDev rest devices

/-! ## Pedal event forwarding (`src/pedal.rs`) and dispatch (`src/main.rs`) -/

/-- The `InputEventKind` cases distinguished by `read_events_loop`. -/
inductive InputEventKind where
  | keyUnknown (code : ℕ)
  | key (code : ℕ)
  | other
deriving DecidableEq

/-- A raw evdev event: its kind and its value
(`0` release, `1` press, `2` autorepeat). -/
structure RawEvent where
  kind : InputEventKind
  value : ℤ
deriving DecidableEq

/-- `PedalEvent` from `src/pedal.rs`. -/
structure PedalEvent where
  code : ℕ
  value : ℤ
deriving DecidableEq

/-- The per-event forwarding decision of `read_events_loop`: every key-type
event is forwarded as a `(code, value)` pair (the source's comment says
"We forward all key events; UI will map/debounce"); non-key events are
dropped. -/
def forwardEvent (ev : RawEvent) : Option PedalEvent :=
  match ev.kind with
  | .keyUnknown c => some { code := c, value := ev.value }
  | .key c => some { code := c, value := ev.value }
  | .other => none

/-- The `App` state manipulated by `handle_pedal_event` and
`tick_hold_rewind` in `src/main.rs`, with the configuration fields they
read.  Times (`Instant`) are rational milliseconds. -/
structure AppState where
  player : Player
  left_pressed : Bool
  right_pressed : Bool
  middle_pressed : Bool
  left_code : ℕ
  right_code : ℕ
  middle_code : ℕ
  hold_last_tick : Option ℚ
  show_archive_dialog : Bool
  rewind_seconds : ℕ
  play_start_rewind_seconds : ℕ
  hold_rewind_interval_ms : ℕ
deriving DecidableEq

/-- `App::handle_pedal_event`.  `now` is the wall clock (ms) at this call
(`Instant::now`), `elapsed` the play-clock parameter fed to the transport
operations it invokes, `sinkOk` whether sink creation succeeds in them. -/
def AppState.handlePedalEvent (a : AppState) (ev : PedalEvent) (now : ℚ)
    (elapsed : ℚ) (sinkOk : Bool) : PanicOr AppState :=
  if ev.value = 2 then .ok a
  else
    let isPress := ev.value = 1
    if ev.code = a.right_code then
      if isPress ∧ a.right_pressed = false then
        match a.player.seekSeconds (-(a.play_start_rewind_seconds : ℤ))
            elapsed sinkOk with
        | .panic m => .panic m
        | .ok pl =>
          match pl.playFromCurrent sinkOk with
          | .panic m => .panic m
          | .ok pl2 => .ok { a with player := pl2, right_pressed := true }
      else if (¬ isPress) ∧ a.right_pressed = true then
        .ok { a with player := a.player.pause elapsed, right_pressed := false }
      else .ok a
    else if ev.code = a.left_code then
      if isPress ∧ a.left_pressed = false then
        .ok { a with left_pressed := true, hold_last_tick := some now }
      else if (¬ isPress) ∧ a.left_pressed = true then
        .ok { a with left_pressed := false, hold_last_tick := none }
      else .ok a
    else if ev.code = a.middle_code then
      if isPress ∧ a.middle_pressed = false then
        .ok { a with middle_pressed := true,
                     player := a.player.pause elapsed,
                     show_archive_dialog := true }
      else if (¬ isPress) ∧ a.middle_pressed = true then
        .ok { a with middle_pressed := false }
      else .ok a
    else .ok a

/-- `App::tick_hold_rewind`: when left is held and at least
`hold_rewind_interval_ms` elapsed since `hold_last_tick`, rewind by
`rewind_seconds` and reset the timestamp.  `now` in rational ms. -/
def AppState.tickHoldRewind (a : AppState) (now : ℚ) (elapsed : ℚ)
    (sinkOk : Bool) : PanicOr AppState :=
  if a.left_pressed = false then .ok a
  else
    match a.hold_last_tick with
    | none => .ok a
    | some last =>
      if (a.hold_rewind_interval_ms : ℚ) ≤ now - last then
        match a.player.seekSeconds (-(a.rewind_seconds : ℤ)) elapsed sinkOk with
        | .panic m => .panic m
        | .ok pl => .ok { a with player := pl, hold_last_tick := some now }
      else .ok a

/-! ## Operation sequences over the player -/

/-- One transport operation of `src/audio.rs`, with the external inputs it
consumes (decode result, wall-clock reads, sink-creation success). -/
inductive Op where
  | load (path : String) (decoded : Except String DecodedAudio)
  | play (sinkOk : Bool)
  | pause (elapsed : ℚ)
  | seek (delta : ℤ) (elapsed : ℚ) (sinkOk : Bool)
  | setSpeed (speed : ℚ) (elapsed : ℚ) (sinkOk : Bool)
  | clampAtEnd (elapsed : ℚ)
  | stop
  | unload

/-- Apply one operation to the player. -/
def applyOp (p : Player) : Op → PanicOr Player
  | .load path dec => .ok (p.loadFile path dec).1
  | .play sinkOk => p.playFromCurrent sinkOk
  | .pause e => .ok (p.pause e)
  | .seek d e sinkOk => p.seekSeconds d e sinkOk
  | .setSpeed s e sinkOk => p.setSpeed s e sinkOk
  | .clampAtEnd e => .ok (p.clampAtEndIfNeeded e)
  | .stop => .ok p.stop
  | .unload => .ok p.unload

/-- Run a sequence of operations; a panic aborts the run. -/
def runOps (p : Player) : List Op → PanicOr Player
  | [] => .ok p
  | op :: rest =>
    match applyOp p op with
    | .panic m => .panic m
    | .ok p1 => runOps p1 rest

/-- The committed resting position stays within the loaded buffer. -/
def Player.Inv (p : Player) : Prop :=
  ∀ a : DecodedAudio, p.audio = some a → p.content_index ≤ a.total_samples

/-! ## Helper lemmas -/

/-- Well-formedness of a source view: the cursor is inside the window and the
window ends within the buffer. -/
def SliceSource.Wf (s : SliceSource) : Prop :=
  s.pos ≤ s.endIdx ∧ s.endIdx ≤ s.data.length

theorem SliceSource.new_wf (data : List ℚ) (start ch sr : ℕ) (speed : ℚ) :
    (SliceSource.new data start ch sr speed).Wf := by
  refine ⟨?_, ?_⟩ <;> simp [SliceSource.new]

theorem SliceSource.next_eq_some {s : SliceSource} {v : ℚ} {s1 : SliceSource}
    (h : s.next = some (v, s1)) :
    s.pos < s.endIdx ∧ v = s.data.getD s.pos 0 ∧
      s1 = { s with pos := s.pos + 1 } := by
  unfold SliceSource.next at h
  by_cases hle : s.endIdx ≤ s.pos
  · simp [hle] at h
  · simp only [if_neg hle, Option.some.injEq, Prod.mk.injEq] at h
    exact ⟨by omega, h.1.symm, h.2.symm⟩

theorem SliceSource.steps_wf :
    ∀ (n : ℕ) (s : SliceSource), s.Wf →
      (s.steps n).Wf ∧ (s.steps n).data = s.data ∧ (s.steps n).endIdx = s.endIdx
  | 0, s, h => ⟨h, rfl, rfl⟩
  | n + 1, s, h => by
    unfold SliceSource.steps
    cases hn : s.next with
    | none => exact ⟨h, rfl, rfl⟩
    | some pr =>
      obtain ⟨v, s1⟩ := pr
      obtain ⟨hlt, _, hs1⟩ := SliceSource.next_eq_some hn
      have h1 : s1.Wf := by
        subst hs1; exact ⟨Nat.succ_le_of_lt hlt, h.2⟩
      have hrec := SliceSource.steps_wf n s1 h1
      subst hs1
      exact ⟨hrec.1, hrec.2.1, hrec.2.2⟩

theorem SliceSource.next_none {s : SliceSource} (h : s.endIdx ≤ s.pos) :
    s.next = none := by
  unfold SliceSource.next
  simp [h]

/-! ## C9 -/

/-- C9: For every sample buffer and every requested start index (including
indices past the end of the buffer), constructing a `SliceSource` and
iterating it never reads out of bounds: the start is clamped to the buffer
length, `next()` returns `None` once the position reaches the end, and every
index actually read is strictly below the buffer length. -/
theorem C9_slice_reads_in_bounds (data : List ℚ) (start ch sr : ℕ)
    (speed : ℚ) (n : ℕ) :
    (SliceSource.new data start ch sr speed).pos = min start data.length
    ∧ (∀ s : SliceSource, s.endIdx ≤ s.pos → s.next = none)
    ∧ ((SliceSource.new data start ch sr speed).steps n).pos ≤ data.length
    ∧ (∀ v s1,
        ((SliceSource.new data start ch sr speed).steps n).next = some (v, s1) →
          ((SliceSource.new data start ch sr speed).steps n).pos < data.length
          ∧ v = data.getD (((SliceSource.new data start ch sr speed).steps n).pos) 0) := by
  have hwf := SliceSource.steps_wf n _ (SliceSource.new_wf data start ch sr speed)
  have hdata : ((SliceSource.new data start ch sr speed).steps n).data = data :=
    hwf.2.1.trans rfl
  have hlen : ((SliceSource.new data start ch sr speed).steps n).data.length =
      data.length := by rw [hdata]
  refine ⟨by simp [SliceSource.new], fun s h => SliceSource.next_none h, ?_, ?_⟩
  · exact le_trans hwf.1.1 (le_trans hwf.1.2 hlen.le)
  · intro v s1 h
    obtain ⟨hlt, hv, _⟩ := SliceSource.next_eq_some h
    exact ⟨lt_of_lt_of_le hlt (le_trans hwf.1.2 hlen.le),
      hv.trans (by rw [hdata])⟩

/-! ## C3 -/

/-- C3 counterexample.  The claim says the source's read cursor advances by
`speed` source-samples per emitted output sample, with linear interpolation
at fractional positions.  On the buffer `[1, 2, 3, 4]` at speed `2` that
would emit sample `3` (source position `2.0`) as the second output sample.
The code instead advances the integer cursor by exactly one and emits the
raw sample `2`; speed only changes the sample rate the sink is told
(`8 × 2 = 16`). -/
theorem C3_counterexample :
    ((SliceSource.new [1, 2, 3, 4] 0 1 8 2).steps 1).pos = 1
    ∧ (1 : ℕ) ≠ 2
    ∧ ((SliceSource.new [1, 2, 3, 4] 0 1 8 2).steps 1).next =
        some (2, (SliceSource.new [1, 2, 3, 4] 0 1 8 2).steps 2)
    ∧ (2 : ℚ) ≠ 3
    ∧ (SliceSource.new [1, 2, 3, 4] 0 1 8 2).sample_rate = 16 := by
  have hsr : (SliceSource.new [1, 2, 3, 4] 0 1 8 2).sample_rate = 16 := by
    show (max (round ((8 : ℚ) * 2)) 1).toNat = 16
    have h1 : ((8 : ℚ) * 2) = ((16 : ℤ) : ℚ) := by norm_num
    rw [h1, round_intCast]
    omega
  exact ⟨by rfl, by decide, by rfl, by norm_num, hsr⟩

/-- C3 amended: the source advances its integer read cursor by exactly one
source sample per emitted output sample and emits that raw sample without
interpolation; the `speed` factor is instead applied by reporting the
adjusted output sample rate `((base_sample_rate as f32) * speed).round().max(1.0)`
to the sink. -/
theorem C3_one_sample_per_output_rate_adjusted :
    (∀ (s : SliceSource) (v : ℚ) (s1 : SliceSource), s.next = some (v, s1) →
        s1.pos = s.pos + 1 ∧ v = s.data.getD s.pos 0)
    ∧ (∀ (data : List ℚ) (start ch base : ℕ) (speed : ℚ),
        (SliceSource.new data start ch base speed).sample_rate =
          (max (round ((base : ℚ) * speed)) 1).toNat) := by
  refine ⟨?_, ?_⟩
  · intro s v s1 h
    obtain ⟨_, hv, hs1⟩ := SliceSource.next_eq_some h
    subst hs1
    exact ⟨rfl, hv⟩
  · intro data start ch base speed
    simp [SliceSource.new]

/-! ## C1 -/

/-- A concrete loaded, paused player used to exhibit C1. -/
def playerC1 : Player :=
  { Player.init with
      audio := some { samples := List.replicate 8 0, sample_rate := 4,
                      channels := 2, total_samples := 8 },
      file_path := some "take1.opus",
      content_index := 4 }

/-- C1 counterexample.  The claim says that when the output sink cannot be
created, play/resume fails with a distinguishable, non-fatal error, the
player stays paused with its position unchanged and the process keeps
running.  In the code `Player::rebuild_sink_from` runs
`Sink::try_new(&self.output.handle).expect("Failed to create Sink")`: on a
loaded, paused player whose sink creation fails, `play_from_current` panics
and the process aborts — there is no error result at all. -/
theorem C1_counterexample :
    playerC1.playFromCurrent false = PanicOr.panic "Failed to create Sink"
    ∧ playerC1.playing = false := by
  exact ⟨rfl, rfl⟩

/-- C1 amended: if the output sink cannot be created when playback is
(re)started with a file loaded, the process panics with message
"Failed to create Sink" (sink-creation failure is process-fatal, not a
distinguishable recoverable error); when no file is loaded the rebuild is a
no-op that leaves the player unchanged. -/
theorem C1_sink_failure_panics (p : Player) (a : DecodedAudio)
    (ha : p.audio = some a) :
    p.playFromCurrent false = PanicOr.panic "Failed to create Sink"
    ∧ (∀ start_idx : ℕ,
        p.rebuildSinkFrom start_idx false = PanicOr.panic "Failed to create Sink")
    ∧ (∀ (q : Player) (sinkOk : Bool), q.audio = none →
        q.playFromCurrent sinkOk = PanicOr.ok q) := by
  refine ⟨?_, ?_, ?_⟩
  · unfold Player.playFromCurrent Player.rebuildSinkFrom
    rw [ha]
    simp
  · intro start_idx
    unfold Player.rebuildSinkFrom
    rw [ha]
    simp
  · intro q sinkOk hq
    unfold Player.playFromCurrent Player.rebuildSinkFrom
    rw [hq]

/-- C1 witness: the amended claim at the concrete player `playerC1`. -/
theorem C1_witness :
    playerC1.playFromCurrent false = PanicOr.panic "Failed to create Sink"
    ∧ (∀ start_idx : ℕ,
        playerC1.rebuildSinkFrom start_idx false =
          PanicOr.panic "Failed to create Sink")
    ∧ (∀ (q : Player) (sinkOk : Bool), q.audio = none →
        q.playFromCurrent sinkOk = PanicOr.ok q) :=
  C1_sink_failure_panics playerC1
    { samples := List.replicate 8 0, sample_rate := 4,
      channels := 2, total_samples := 8 } rfl

/-! ## C5 -/

/-- C5 counterexample.  The claim says the pedal source's read loop never
forwards a `(code, value=2)` event.  The read loop in `src/pedal.rs` forwards
every key-type event unchanged (its comment: "We forward all key events; UI
will map/debounce"), so an autorepeat event for key code 288 is forwarded
as-is. -/
theorem C5_counterexample :
    forwardEvent { kind := .key 288, value := 2 } =
      some { code := 288, value := 2 }
    ∧ forwardEvent { kind := .key 288, value := 2 } ≠ none := by
  exact ⟨rfl, by decide⟩

/-- C5 amended: the pedal source's read loop forwards all key events,
autorepeat included; autorepeat (`value=2`) is filtered in the application's
`handle_pedal_event`, which returns with the whole application state
unchanged, so an autorepeat event never triggers any action. -/
theorem C5_autorepeat_filtered_in_app :
    (∀ (c : ℕ) (v : ℤ), forwardEvent { kind := .key c, value := v } =
        some { code := c, value := v })
    ∧ (∀ (c : ℕ) (v : ℤ), forwardEvent { kind := .keyUnknown c, value := v } =
        some { code := c, value := v })
    ∧ (∀ (a : AppState) (ev : PedalEvent) (now elapsed : ℚ) (sinkOk : Bool),
        ev.value = 2 →
          a.handlePedalEvent ev now elapsed sinkOk = PanicOr.ok a) := by
  refine ⟨fun c v => rfl, fun c v => rfl, ?_⟩
  intro a ev now elapsed sinkOk hv
  unfold AppState.handlePedalEvent
  simp [hv]

/-! ## C7 -/

/-- A concrete playing player with a loaded file, used to exhibit C7. -/
def playerC7 : Player :=
  { Player.init with
      audio := some { samples := List.replicate 8 0, sample_rate := 4,
                      channels := 2, total_samples := 8 },
      file_path := some "take1.opus",
      sink := some (SliceSource.new (List.replicate 8 0) 0 2 4 1),
      playing := true,
      play_start_index := 0,
      play_start_instant := true }

/-- C7 counterexample.  The claim says a failed open leaves the playback
state unchanged — the previously loaded file still loaded with its playback
state intact.  `Player::load_file` calls `self.stop()` *before* decoding, so
when the decode fails on a player that was playing, the previous file is
still loaded but its playback has been stopped: `playing` flips from `true`
to `false` and the sink is torn down. -/
theorem C7_counterexample :
    playerC7.playing = true
    ∧ (playerC7.loadFile "bad.opus" (.error "Probe failed: end of stream")).1.playing
        = false
    ∧ (playerC7.loadFile "bad.opus" (.error "Probe failed: end of stream")).2
        = some "Probe failed: end of stream"
    ∧ (playerC7.loadFile "bad.opus" (.error "Probe failed: end of stream")).1.audio
        = playerC7.audio := by
  exact ⟨rfl, rfl, rfl, rfl⟩

/-- C7 amended: when opening a file fails, the error is surfaced as a
non-fatal notice (the error value is returned to the caller, which pushes a
dismissible notice) and any previously loaded file remains loaded — same
audio, same path, same committed resting position — but because `load_file`
stops playback before decoding, the player is left stopped (`playing=false`,
sink torn down) rather than with its running state intact. -/
theorem C7_open_failure_stops_then_keeps_file (p : Player) (path e : String) :
    p.loadFile path (.error e) = (p.stop, some e)
    ∧ p.stop.audio = p.audio
    ∧ p.stop.file_path = p.file_path
    ∧ p.stop.content_index = p.content_index
    ∧ p.stop.playing = false
    ∧ p.stop.sink = none := by
  exact ⟨rfl, rfl, rfl, rfl, rfl, rfl⟩

/-! ## C2 -/

/-- While paused, the reported index is the committed resting position. -/
theorem currentIndex_paused {p : Player} (hpl : p.playing = false) (e : ℚ) :
    p.currentIndexInterleaved e = p.content_index := by
  simp [Player.currentIndexInterleaved, hpl]

/-- C2: for every loaded buffer, while running the reported current
interleaved index equals
`start_index + floor(elapsed × sample_rate × speed × channels)` clamped to
`total_samples`, and `pause()` commits exactly this value as the resting
position, tears down the sink, and sets running to false. -/
theorem C2_running_index_and_pause (p : Player) (a : DecodedAudio)
    (elapsed : ℚ) (ha : p.audio = some a) (hpl : p.playing = true)
    (hi : p.play_start_instant = true) :
    p.currentIndexInterleaved elapsed =
      min (p.play_start_index +
        (Int.floor (elapsed * (a.sample_rate : ℚ) * p.speed *
          (a.channels : ℚ))).toNat) a.total_samples
    ∧ p.pause elapsed =
      { p with
          content_index := min (p.play_start_index +
            (Int.floor (elapsed * (a.sample_rate : ℚ) * p.speed *
              (a.channels : ℚ))).toNat) a.total_samples,
          sink := none, playing := false, play_start_instant := false } := by
  have hcur : p.currentIndexInterleaved elapsed =
      min (p.play_start_index +
        (Int.floor (elapsed * (a.sample_rate : ℚ) * p.speed *
          (a.channels : ℚ))).toNat) a.total_samples := by
    unfold Player.currentIndexInterleaved
    rw [hpl, ha, hi]
    simp only [Bool.true_eq_false, if_false]
    split <;> omega
  refine ⟨hcur, ?_⟩
  unfold Player.pause
  rw [hpl, hcur]
  rfl

/-- Concrete audio buffer for the C2 witness: stereo, 4 frames at 4 Hz. -/
def audioC2 : DecodedAudio :=
  { samples := List.replicate 8 0, sample_rate := 4, channels := 2,
    total_samples := 8 }

/-- Concrete running player for the C2 witness. -/
def playerC2 : Player :=
  { Player.init with
      audio := some audioC2,
      file_path := some "take2.opus",
      sink := some (SliceSource.new (List.replicate 8 0) 2 2 4 1),
      playing := true,
      play_start_index := 2,
      content_index := 2,
      play_start_instant := true }

/-- C2 witness: the theorem at the concrete running player `playerC2` after
half a second of wall-clock time. -/
theorem C2_witness :
    playerC2.currentIndexInterleaved (1 / 2) =
      min (playerC2.play_start_index +
        (Int.floor ((1 / 2 : ℚ) * (audioC2.sample_rate : ℚ) * playerC2.speed *
          (audioC2.channels : ℚ))).toNat) audioC2.total_samples
    ∧ playerC2.pause (1 / 2) =
      { playerC2 with
          content_index := min (playerC2.play_start_index +
            (Int.floor ((1 / 2 : ℚ) * (audioC2.sample_rate : ℚ) * playerC2.speed *
              (audioC2.channels : ℚ))).toNat) audioC2.total_samples,
          sink := none, playing := false, play_start_instant := false } :=
  C2_running_index_and_pause playerC2 audioC2 (1 / 2) rfl rfl rfl

/-! ## C4 -/

/-- Candidates that yield no opened device are skipped in order. -/
theorem find_device_skip (fsExists openDev : String → Bool)
    (devices : List EnumDevice) :
    ∀ (pre rest : List Preferred),
      (∀ q ∈ pre, tryPref fsExists openDev devices q = none) →
      find_device fsExists openDev (pre ++ rest) devices =
        find_device fsExists openDev rest devices
  | [], _, _ => rfl
  | q :: pre, rest, h => by
    have hq : tryPref fsExists openDev devices q = none := h q (by simp)
    have hstep : find_device fsExists openDev (q :: (pre ++ rest)) devices =
        find_device fsExists openDev (pre ++ rest) devices := by
      show (match tryPref fsExists openDev devices q with
            | some path => some path
            | none => find_device fsExists openDev (pre ++ rest) devices) =
          find_device fsExists openDev (pre ++ rest) devices
      rw [hq]
    exact hstep.trans (find_device_skip fsExists openDev devices pre rest
      (fun r hr => h r (by simp [hr])))

/-- C4: discovery tries candidates in list order and returns the device
found for the earliest candidate that yields one, regardless of the
candidates listed after it (no further candidates are tried after a
successful match), and regardless of where in the enumeration order that
candidate's device appears — `tryVidPid` itself scans the enumeration
snapshot and returns the first enumerated device whose identity matches that
single candidate. -/
theorem C4_first_candidate_in_list_order_wins
    (fsExists openDev : String → Bool) (pre : List Preferred) (vid pid : ℕ)
    (post : List Preferred) (devices : List EnumDevice) (path : String)
    (hpre : ∀ q ∈ pre, tryPref fsExists openDev devices q = none)
    (hmatch : tryVidPid vid pid devices = some path) :
    find_device fsExists openDev (pre ++ Preferred.vidPid vid pid :: post)
        devices = some path
    ∧ find_device fsExists openDev (pre ++ [Preferred.vidPid vid pid])
        devices = some path := by
  constructor
  · rw [find_device_skip fsExists openDev devices pre
      (Preferred.vidPid vid pid :: post) hpre]
    unfold find_device
    show (match tryVidPid vid pid devices with
          | some path => some path
          | none => find_device fsExists openDev post devices) = some path
    rw [hmatch]
  · rw [find_device_skip fsExists openDev devices pre
      [Preferred.vidPid vid pid] hpre]
    unfold find_device
    show (match tryVidPid vid pid devices with
          | some path => some path
          | none => find_device fsExists openDev [] devices) = some path
    rw [hmatch]

/-- C4 witness devices: the device matching the *second* candidate `(2,20)`
is enumerated first, the device matching the *first* candidate `(1,10)`
second. -/
def deviceC4_second_candidate : EnumDevice :=
  { path := "/dev/input/event5", input_id := some (2, 20), openOk := true }

/-- See `deviceC4_second_candidate`. -/
def deviceC4_first_candidate : EnumDevice :=
  { path := "/dev/input/event7", input_id := some (1, 10), openOk := true }

/-- C4 witness: the spec's scenario.  Candidate list
`[(V1,P1)=(1,10), (V2,P2)=(2,20)]`, enumeration order
`[device(2,20), device(1,10)]`: discovery returns the `(1,10)` device even
though it was enumerated second, and the result is the same with the later
candidate removed. -/
theorem C4_witness :
    find_device (fun _ => false) (fun _ => false)
        ([] ++ Preferred.vidPid 1 10 :: [Preferred.vidPid 2 20])
        [deviceC4_second_candidate, deviceC4_first_candidate] =
      some "/dev/input/event7"
    ∧ find_device (fun _ => false) (fun _ => false)
        ([] ++ [Preferred.vidPid 1 10])
        [deviceC4_second_candidate, deviceC4_first_candidate] =
      some "/dev/input/event7" :=
  C4_first_candidate_in_list_order_wins (fun _ => false) (fun _ => false)
    [] 1 10 [Preferred.vidPid 2 20]
    [deviceC4_second_candidate, deviceC4_first_candidate]
    "/dev/input/event7" (by simp) (by decide)

/-! ## C6 -/

/-- Concrete audio for the C6 scenario: stereo, 16 frames at 4 Hz,
`total_samples = 32`. -/
def audioC6 : DecodedAudio :=
  { samples := List.replicate 32 0, sample_rate := 4, channels := 2,
    total_samples := 32 }

/-- Concrete app for the C6 scenario: default key codes, 500 ms hold-rewind
interval, 1 s rewind, player paused at the end of the buffer. -/
def appC6 : AppState :=
  { player := { Player.init with
      audio := some audioC6, file_path := some "take6.opus",
      content_index := 32 },
    left_pressed := false, right_pressed := false, middle_pressed := false,
    left_code := 288, right_code := 289, middle_code := 290,
    hold_last_tick := none, show_archive_dialog := false,
    rewind_seconds := 1, play_start_rewind_seconds := 1,
    hold_rewind_interval_ms := 500 }

/-- `appC6` right after the left press at time 0. -/
def appC6pressed : AppState :=
  { appC6 with left_pressed := true, hold_last_tick := some 0 }

/-- C6 counterexample.  The claim says a left press "arms an immediate first
repeat: ... the very next repeat tick performs the first rewind".  In the
code, the press records `hold_last_tick = now` and `tick_hold_rewind` only
rewinds once a full `hold_rewind_interval_ms` has elapsed since that
timestamp.  Pressing at time 0 and ticking at the very next UI frame
(33 ms later, interval 500 ms) performs no rewind: the state — in
particular the resting position 32 — is unchanged. -/
theorem C6_counterexample :
    appC6.handlePedalEvent { code := 288, value := 1 } 0 0 true =
      PanicOr.ok appC6pressed
    ∧ appC6pressed.tickHoldRewind 33 0 true = PanicOr.ok appC6pressed
    ∧ appC6pressed.player.content_index = 32 := by
  refine ⟨?_, ?_, rfl⟩
  · show (if (1 : ℤ) = 2 then PanicOr.ok appC6 else _) = _
    norm_num [appC6, appC6pressed]
  · show (if appC6pressed.left_pressed = false then PanicOr.ok appC6pressed
      else _) = _
    norm_num [appC6pressed, appC6]

/-- C6 amended: a left press (`value=1`, not already held) sets held and
records the press time without any seek; a release (`value=0`) clears held
and disarms the repeat; the repeat tick performs no rewind while less than
`hold_rewind_interval_ms` has elapsed since the recorded time, and performs
the rewind (by `rewind_seconds`, resetting the timestamp) at the first tick
at which a full interval has elapsed — so the first rewind happens one full
interval after the press, not at the very next tick. -/
theorem C6_left_hold_semantics (a : AppState) (now elapsed : ℚ)
    (sinkOk : Bool) (hcode : a.left_code ≠ a.right_code)
    (hnp : a.left_pressed = false) :
    a.handlePedalEvent { code := a.left_code, value := 1 } now elapsed sinkOk =
      PanicOr.ok { a with left_pressed := true, hold_last_tick := some now }
    ∧ (∀ b : AppState, b.left_pressed = true → b.left_code ≠ b.right_code →
        b.handlePedalEvent { code := b.left_code, value := 0 } now elapsed
            sinkOk =
          PanicOr.ok { b with left_pressed := false, hold_last_tick := none })
    ∧ (∀ (b : AppState) (later : ℚ), b.left_pressed = true →
        b.hold_last_tick = some now →
        later - now < (b.hold_rewind_interval_ms : ℚ) →
        b.tickHoldRewind later elapsed sinkOk = PanicOr.ok b)
    ∧ (∀ (b : AppState) (later : ℚ) (pl : Player), b.left_pressed = true →
        b.hold_last_tick = some now →
        (b.hold_rewind_interval_ms : ℚ) ≤ later - now →
        b.player.seekSeconds (-(b.rewind_seconds : ℤ)) elapsed sinkOk =
          PanicOr.ok pl →
        b.tickHoldRewind later elapsed sinkOk =
          PanicOr.ok { b with player := pl, hold_last_tick := some later }) := by
  refine ⟨?_, ?_, ?_, ?_⟩
  · unfold AppState.handlePedalEvent
    simp [hcode, hnp]
  · intro b hb hbc
    unfold AppState.handlePedalEvent
    simp [hbc, hb]
  · intro b later hb hlast hlt
    unfold AppState.tickHoldRewind
    rw [hb, hlast]
    simp [not_le.mpr hlt]
  · intro b later pl hb hlast hge hseek
    unfold AppState.tickHoldRewind
    rw [hb, hlast]
    simp only [Bool.true_eq_false, if_false]
    rw [if_pos hge, hseek]

/-- C6 witness: the amended claim at the concrete app `appC6` (press at
time 0). -/
theorem C6_witness :
    appC6.handlePedalEvent { code := appC6.left_code, value := 1 } 0 0 true =
      PanicOr.ok { appC6 with left_pressed := true, hold_last_tick := some 0 }
    ∧ (∀ b : AppState, b.left_pressed = true → b.left_code ≠ b.right_code →
        b.handlePedalEvent { code := b.left_code, value := 0 } 0 0 true =
          PanicOr.ok { b with left_pressed := false, hold_last_tick := none })
    ∧ (∀ (b : AppState) (later : ℚ), b.left_pressed = true →
        b.hold_last_tick = some 0 →
        later - 0 < (b.hold_rewind_interval_ms : ℚ) →
        b.tickHoldRewind later 0 true = PanicOr.ok b)
    ∧ (∀ (b : AppState) (later : ℚ) (pl : Player), b.left_pressed = true →
        b.hold_last_tick = some 0 →
        (b.hold_rewind_interval_ms : ℚ) ≤ later - 0 →
        b.player.seekSeconds (-(b.rewind_seconds : ℤ)) 0 true =
          PanicOr.ok pl →
        b.tickHoldRewind later 0 true =
          PanicOr.ok { b with player := pl, hold_last_tick := some later }) :=
  C6_left_hold_semantics appC6 0 0 true (by decide) rfl

/-! ## C8 -/

/-- The seek-delta conversion `floor(Δ × sample_rate × channels)` is exact
for the integer inputs the code feeds it. -/
theorem floor_int_mul (d : ℤ) (s c : ℕ) :
    Int.floor ((d : ℚ) * (s : ℚ) * (c : ℚ)) = d * s * c := by
  have h : ((d : ℚ) * (s : ℚ) * (c : ℚ)) = ((d * s * c : ℤ) : ℚ) := by
    push_cast; ring
  rw [h, Int.floor_intCast]

/-- `seek_seconds` on a paused player with no clamping: the resting position
moves by exactly `Δ × sample_rate × channels` interleaved samples. -/
theorem seekSeconds_paused_no_clamp (p : Player) (a : DecodedAudio) (ds : ℤ)
    (e : ℚ) (sinkOk : Bool) (ha : p.audio = some a) (hpl : p.playing = false)
    (hlow : 0 ≤ (p.content_index : ℤ) + ds * a.sample_rate * a.channels)
    (hhigh : (p.content_index : ℤ) + ds * a.sample_rate * a.channels ≤
      (a.total_samples : ℤ)) :
    p.seekSeconds ds e sinkOk = PanicOr.ok { p with content_index :=
      ((p.content_index : ℤ) + ds * a.sample_rate * a.channels).toNat } := by
  unfold Player.seekSeconds
  rw [ha]
  simp only [floor_int_mul, currentIndex_paused hpl, hpl, Bool.false_eq_true,
    if_false]
  rw [if_neg (by omega), if_neg (by omega)]

/-- C8: for every valid start index and positive speed, `seek(+Δ)` followed
by `seek(−Δ)` while paused returns the reported current index exactly to its
pre-seek value (well within one sample) whenever neither seek is clamped by
the buffer bounds `[0, total_samples]`. -/
theorem C8_seek_roundtrip (p : Player) (a : DecodedAudio) (ds : ℤ)
    (e1 e2 : ℚ) (ok1 ok2 : Bool)
    (ha : p.audio = some a) (hpl : p.playing = false) (hsp : 0 < p.speed)
    (hbound : p.content_index ≤ a.total_samples)
    (hlow : 0 ≤ (p.content_index : ℤ) + ds * a.sample_rate * a.channels)
    (hhigh : (p.content_index : ℤ) + ds * a.sample_rate * a.channels ≤
      (a.total_samples : ℤ)) :
    ∃ p1 p2 : Player,
      p.seekSeconds ds e1 ok1 = PanicOr.ok p1
      ∧ p1.seekSeconds (-ds) e2 ok2 = PanicOr.ok p2
      ∧ p2.content_index = p.content_index
      ∧ p2.currentIndexInterleaved e2 = p.currentIndexInterleaved e1 := by
  have h1 := seekSeconds_paused_no_clamp p a ds e1 ok1 ha hpl hlow hhigh
  have hcast : ((((p.content_index : ℤ) + ds * a.sample_rate *
      a.channels).toNat : ℤ)) =
      (p.content_index : ℤ) + ds * a.sample_rate * a.channels :=
    Int.toNat_of_nonneg hlow
  have hneg : (-ds : ℤ) * a.sample_rate * a.channels =
      -(ds * a.sample_rate * a.channels) := by ring
  set p1 : Player := { p with content_index :=
    ((p.content_index : ℤ) + ds * a.sample_rate * a.channels).toNat } with hp1
  have hp1audio : p1.audio = some a := ha
  have hp1play : p1.playing = false := hpl
  have hlow2 : 0 ≤ (p1.content_index : ℤ) +
      (-ds) * a.sample_rate * a.channels := by
    show 0 ≤ ((((p.content_index : ℤ) + ds * a.sample_rate *
      a.channels).toNat : ℤ)) + (-ds) * a.sample_rate * a.channels
    rw [hcast, hneg]; omega
  have hhigh2 : (p1.content_index : ℤ) +
      (-ds) * a.sample_rate * a.channels ≤ (a.total_samples : ℤ) := by
    show ((((p.content_index : ℤ) + ds * a.sample_rate *
      a.channels).toNat : ℤ)) + (-ds) * a.sample_rate * a.channels ≤ _
    rw [hcast, hneg]; omega
  have h2 := seekSeconds_paused_no_clamp p1 a (-ds) e2 ok2 hp1audio hp1play
    hlow2 hhigh2
  have hcontent : ((p1.content_index : ℤ) +
      (-ds) * a.sample_rate * a.channels).toNat = p.content_index := by
    rw [show ((p1.content_index : ℤ)) = (((p.content_index : ℤ) +
      ds * a.sample_rate * a.channels).toNat : ℤ) from rfl, hcast, hneg]
    omega
  refine ⟨p1, _, h1, h2, hcontent, ?_⟩
  rw [currentIndex_paused hpl e1]
  exact Eq.trans
    (@currentIndex_paused
      { p1 with content_index := ((p1.content_index : ℤ) +
          (-ds) * (a.sample_rate : ℤ) * (a.channels : ℤ)).toNat }
      hpl e2) hcontent

/-- Concrete audio for the C8 witness: stereo, 40 frames at 4 Hz. -/
def audioC8 : DecodedAudio :=
  { samples := List.replicate 80 0, sample_rate := 4, channels := 2,
    total_samples := 80 }

/-- Concrete paused player for the C8 witness, resting at index 40. -/
def playerC8 : Player :=
  { Player.init with
      audio := some audioC8, file_path := some "take8.opus",
      content_index := 40 }

/-- C8 witness: `seek(+2s)` then `seek(−2s)` from index 40 on `audioC8`
(delta 16 samples each way, no clamping) restores the reported index. -/
theorem C8_witness :
    ∃ p1 p2 : Player,
      playerC8.seekSeconds 2 0 true = PanicOr.ok p1
      ∧ p1.seekSeconds (-2) 0 true = PanicOr.ok p2
      ∧ p2.content_index = playerC8.content_index
      ∧ p2.currentIndexInterleaved 0 = playerC8.currentIndexInterleaved 0 :=
  C8_seek_roundtrip playerC8 audioC8 2 0 0 true true rfl rfl (by decide)
    (by decide) (by decide) (by decide)

/-! ## C10 -/

/-- The clamp at the end of `seek_seconds` never exceeds the buffer. -/
theorem clamp_le (t : ℕ) (x : ℤ) :
    (if (t : ℤ) < x then (t : ℤ) else x).toNat ≤ t := by
  split <;> omega

/-- Under the resting-position invariant the reported index never exceeds
`total_samples`. -/
theorem currentIndex_le (p : Player) (a : DecodedAudio) (e : ℚ)
    (hinv : p.Inv) (ha : p.audio = some a) :
    p.currentIndexInterleaved e ≤ a.total_samples := by
  unfold Player.currentIndexInterleaved
  rw [ha]
  split
  · exact hinv a ha
  · dsimp only
    split
    · exact hinv a ha
    · split <;> omega

theorem Inv_stop {p : Player} (h : p.Inv) : p.stop.Inv :=
  fun a ha => h a ha

theorem Inv_pause {p : Player} (h : p.Inv) (e : ℚ) : (p.pause e).Inv := by
  unfold Player.pause
  split
  · intro a ha
    exact currentIndex_le p a e h ha
  · exact h

theorem Inv_rebuild {p p1 : Player} {i : ℕ} {sinkOk : Bool} (h : p.Inv)
    (happ : p.rebuildSinkFrom i sinkOk = PanicOr.ok p1) : p1.Inv := by
  unfold Player.rebuildSinkFrom at happ
  cases ha : p.audio with
  | none =>
    rw [ha] at happ
    injection happ with h2
    exact h2 ▸ h
  | some a =>
    rw [ha] at happ
    dsimp only at happ
    by_cases hok : sinkOk = true
    · rw [if_pos hok] at happ
      injection happ with h2
      refine h2 ▸ ?_
      intro b hb
      have hb2 : some a = some b := hb
      exact h b (ha.trans hb2)
    · rw [if_neg hok] at happ
      exact PanicOr.noConfusion happ

theorem Inv_seek {p p1 : Player} {d : ℤ} {e : ℚ} {sinkOk : Bool}
    (h : p.Inv) (happ : p.seekSeconds d e sinkOk = PanicOr.ok p1) :
    p1.Inv := by
  unfold Player.seekSeconds at happ
  cases ha : p.audio with
  | none =>
    rw [ha] at happ
    injection happ with h2
    exact h2 ▸ h
  | some a =>
    rw [ha] at happ
    dsimp only at happ
    have hmid : (Player.Inv { p with audio := some a, content_index :=
        (if (a.total_samples : ℤ) <
            (if (p.currentIndexInterleaved e : ℤ) +
                Int.floor ((d : ℚ) * (a.sample_rate : ℚ) * (a.channels : ℚ)) < 0
              then 0
              else (p.currentIndexInterleaved e : ℤ) +
                Int.floor ((d : ℚ) * (a.sample_rate : ℚ) * (a.channels : ℚ)))
          then (a.total_samples : ℤ)
          else (if (p.currentIndexInterleaved e : ℤ) +
                Int.floor ((d : ℚ) * (a.sample_rate : ℚ) * (a.channels : ℚ)) < 0
              then 0
              else (p.currentIndexInterleaved e : ℤ) +
                Int.floor ((d : ℚ) * (a.sample_rate : ℚ) * (a.channels : ℚ)))).toNat }) := by
      intro b hb
      have hb2 : some a = some b := hb
      have hba : b = a := by
        injection hb2 with h3
        exact h3.symm
      subst hba
      exact clamp_le b.total_samples _
    by_cases hpl : p.playing = true
    · rw [if_pos hpl] at happ
      exact Inv_rebuild hmid happ
    · rw [if_neg hpl] at happ
      injection happ with h2
      exact h2 ▸ hmid

theorem Inv_setSpeed {p p1 : Player} {s e : ℚ} {sinkOk : Bool}
    (h : p.Inv) (happ : p.setSpeed s e sinkOk = PanicOr.ok p1) : p1.Inv := by
  unfold Player.setSpeed at happ
  dsimp only at happ
  by_cases hpl : p.playing = true
  · rw [if_pos hpl] at happ
    refine Inv_rebuild ?_ happ
    intro b hb
    exact currentIndex_le { p with speed := max s (1 / 10) } b e
      (fun c hc => h c hc) hb
  · rw [if_neg hpl] at happ
    injection happ with h2
    refine h2 ▸ ?_
    intro b hb
    exact h b hb

theorem pause_audio (p : Player) (e : ℚ) : (p.pause e).audio = p.audio := by
  unfold Player.pause
  split <;> rfl

theorem Inv_clamp {p : Player} (h : p.Inv) (e : ℚ) :
    (p.clampAtEndIfNeeded e).Inv := by
  unfold Player.clampAtEndIfNeeded
  cases ha : p.audio with
  | none => exact h
  | some a =>
    dsimp only
    split
    · intro b hb
      have hb2 : (p.pause e).audio = some b := hb
      have hb3 : p.audio = some b := (pause_audio p e).symm.trans hb2
      have hba : b = a := by
        rw [ha] at hb3
        injection hb3 with h3
        exact h3.symm
      subst hba
      exact le_refl _
    · exact h

theorem Inv_load {p : Player} (h : p.Inv) (path : String)
    (dec : Except String DecodedAudio) : ((p.loadFile path dec).1).Inv := by
  unfold Player.loadFile
  cases dec with
  | error e => exact fun a ha => h a ha
  | ok d =>
    intro a ha
    have ha2 : some d = some a := ha
    injection ha2 with h2
    subst h2
    exact Nat.zero_le _

theorem Inv_unload {p : Player} (h : p.Inv) : p.unload.Inv :=
  fun a ha => Option.noConfusion ha

theorem applyOp_inv {p p1 : Player} {op : Op} (h : p.Inv)
    (happ : applyOp p op = PanicOr.ok p1) : p1.Inv := by
  cases op with
  | load path dec =>
    injection happ with h2
    exact h2 ▸ Inv_load h path dec
  | play sinkOk => exact Inv_rebuild h happ
  | pause e =>
    injection happ with h2
    exact h2 ▸ Inv_pause h e
  | seek d e sinkOk => exact Inv_seek h happ
  | setSpeed s e sinkOk => exact Inv_setSpeed h happ
  | clampAtEnd e =>
    injection happ with h2
    exact h2 ▸ Inv_clamp h e
  | stop =>
    injection happ with h2
    exact h2 ▸ Inv_stop h
  | unload =>
    injection happ with h2
    exact h2 ▸ Inv_unload h

theorem runOps_inv : ∀ (ops : List Op) (p p1 : Player), p.Inv →
    runOps p ops = PanicOr.ok p1 → p1.Inv
  | [], _, _, h, hrun => by
    injection hrun with h2
    exact h2 ▸ h
  | op :: rest, p, p1, h, hrun => by
    unfold runOps at hrun
    cases happ : applyOp p op with
    | panic m =>
      rw [happ] at hrun
      exact PanicOr.noConfusion hrun
    | ok p2 =>
      rw [happ] at hrun
      exact runOps_inv rest p2 p1 (applyOp_inv h happ) hrun

/-- C10: for every sequence of player operations (`load_file`,
`play_from_current`, `pause`, `seek_seconds`, `set_speed`,
`clamp_at_end_if_needed`, `stop`, `unload`) that the process survives, the
committed resting index `content_index` stays within `[0, total_samples]`
of the loaded buffer, and the reported current interleaved index never
exceeds `total_samples`. -/
theorem C10_resting_position_invariant (p : Player) (ops : List Op)
    (p1 : Player) (hinv : p.Inv) (hrun : runOps p ops = PanicOr.ok p1) :
    p1.Inv ∧ ∀ (e : ℚ) (a : DecodedAudio), p1.audio = some a →
      p1.currentIndexInterleaved e ≤ a.total_samples := by
  have h1 := runOps_inv ops p p1 hinv hrun
  exact ⟨h1, fun e a ha => currentIndex_le p1 a e h1 ha⟩

/-- Concrete audio for the C10 witness. -/
def audioC10 : DecodedAudio :=
  { samples := List.replicate 8 0, sample_rate := 4, channels := 2,
    total_samples := 8 }

/-- Concrete operation sequence for the C10 witness: load, start playback,
stop, end-of-file clamp, pause. -/
def opsC10 : List Op :=
  [Op.load "take10.opus" (.ok audioC10), Op.play true, Op.stop,
   Op.clampAtEnd 0, Op.pause 0]

/-- The player state after running `opsC10` from `Player.init`. -/
def playerC10final : Player :=
  { sink := none, audio := some audioC10, file_path := some "take10.opus",
    playing := false, speed := 1, content_index := 0, play_start_index := 0,
    play_start_instant := false }

/-- C10 witness: the invariant holds after the concrete run `opsC10`. -/
theorem C10_witness :
    Player.init.Inv
    ∧ runOps Player.init opsC10 = PanicOr.ok playerC10final
    ∧ playerC10final.Inv := by
  have hinv : Player.init.Inv := fun a ha => Option.noConfusion ha
  have hrun : runOps Player.init opsC10 = PanicOr.ok playerC10final := by
    decide
  exact ⟨hinv, hrun,
    (C10_resting_position_invariant Player.init opsC10 playerC10final hinv
      hrun).1⟩

end Transcribe
